import Mathlib

/-!
# Shallow embedding of `src/task_queue_testing/src/queue.ts` (class `TaskQueue`)

Each private/public method of the `TaskQueue` class is translated to a Lean
function on an explicit state record `QState`.  JavaScript asynchrony is made
explicit: the synchronous prefix of `executeTask` (up to arming the timeout
timer) is `executeTaskStart`, and the three asynchronous continuations — the
handler promise resolving, the handler promise rejecting, and the timeout
timer callback — are the separate transition functions `handlerResolve`,
`handlerReject` and `timeoutFire`, each taking the settlement data as input.
The per-call local variable `timedOut` of `executeTask` is carried on an
explicit `Invocation` record (one per in-flight handler call), and
`timerActive` records whether that call's `setTimeout` handle is still armed
(it becomes false when the timer fires or when `dispose` clears it); the
source's `timers` map needs no separate model because an armed timeout timer
is always the latest one stored for its id.  Wall-clock values (`Date.now()`,
`new Date()`) are external inputs, passed as a `now : Nat` argument.  Task
identifiers are modelled by the `idCounter` value alone (the source id string
`task_<time>_<counter>` is unique through the counter).  Ghost fields, present
only for specification and never read by the translated operations:
`seq` stamps on ready-list entries (insertion order), `notifications` (a log
of the `onCompleteCallback?.()` / `onFailedCallback?.()` call sites being
reached), and `delayLog` (a log of the backoff delays passed to `setTimeout`
in `scheduleRetry`).  The task record also stores the `retryBaseDelay` and
`timeout` values supplied in `TaskConfig` (as `cfgRetryBaseDelay`,
`cfgTimeout`): the source accepts these fields but `enqueue` never reads
them, and storing the submitted values lets theorems state that fact.
Numbers are `Int`/`Nat` (the `Number.isInteger` runtime checks are
integrality by type here).  The settlement/timeout callbacks mutate the
`task` object captured by closure; the model re-reads the task from the
store, which agrees with the source because a task with an in-flight
invocation is never deleted from the store before that invocation's
discard flag is set (`clear` removes only tasks sitting in the ready list).
-/

namespace TaskQueueSpec

inductive TaskStatus where
  | pending
  | running
  | completed
  | failed
  | timed_out
deriving DecidableEq

/-- The task record (`interface Task` plus the stored-but-unread config
fields, see module docstring). -/
structure Task where
  status : TaskStatus
  priority : Int
  data : Nat
  result : Option Nat
  error : Option String
  attempts : Nat
  maxRetries : Int
  createdAt : Nat
  startedAt : Option Nat
  completedAt : Option Nat
  cfgRetryBaseDelay : Option Nat
  cfgTimeout : Option Nat
deriving DecidableEq

/-- `interface TaskConfig`: `handlerOk` stands for
`typeof config.handler === "function"`; the handler's behaviour itself is
supplied later through `handlerResolve`/`handlerReject` events. -/
structure TaskConfig where
  handlerOk : Bool
  data : Nat
  priority : Option Int
  maxRetries : Option Int
  retryBaseDelay : Option Nat
  timeout : Option Nat
deriving DecidableEq

/-- `interface QueueOptions`. -/
structure QueueOptions where
  maxConcurrency : Option Int
  defaultTimeout : Option Nat
  defaultMaxRetries : Option Int
  defaultRetryBaseDelay : Option Nat
deriving DecidableEq

/-- One in-flight `executeTask` call: its local `timedOut` flag, whether its
timeout timer is still armed, and the duration the timer was armed with. -/
structure Invocation where
  invId : Nat
  tid : Nat
  timedOut : Bool
  timerActive : Bool
  timeoutDuration : Nat
deriving DecidableEq

/-- A ready-list entry: the task id plus a ghost insertion stamp. -/
structure QEntry where
  tid : Nat
  seq : Nat
deriving DecidableEq

/-- Ghost record of a notification callback call site being reached. -/
inductive Notif where
  | completed (tid : Nat)
  | failed (tid : Nat)
deriving DecidableEq

/-- The `TaskQueue` instance state. -/
structure QState where
  tasks : Nat → Option Task
  queue : List QEntry
  running : List Nat
  invocations : List Invocation
  retryTimers : Nat → Option Nat
  handlers : Nat → Bool
  paused : Bool
  disposed : Bool
  idCounter : Nat
  maxConcurrency : Int
  defaultTimeout : Nat
  defaultMaxRetries : Int
  defaultRetryBaseDelay : Nat
  seqCounter : Nat
  invCounter : Nat
  notifications : List Notif
  delayLog : List (Nat × Nat)

/-- The state a fresh `TaskQueue` would have (the field initialisers plus the
constructor's option defaults, lines 56-79 of the source). -/
def freshQueue (opts : QueueOptions) : QState where
  tasks := fun _ => none
  queue := []
  running := []
  invocations := []
  retryTimers := fun _ => none
  handlers := fun _ => false
  paused := false
  disposed := false
  idCounter := 0
  maxConcurrency := opts.maxConcurrency.getD 5
  defaultTimeout := opts.defaultTimeout.getD 30000
  defaultMaxRetries := opts.defaultMaxRetries.getD 3
  defaultRetryBaseDelay := opts.defaultRetryBaseDelay.getD 1000
  seqCounter := 0
  invCounter := 0
  notifications := []
  delayLog := []

/-- `constructor(options)`: source lines 75-84. -/
def mkQueue (opts : QueueOptions) : Except String QState :=
  if opts.maxConcurrency.getD 5 < 1 then
    Except.error "maxConcurrency must be at least 1"
  else
    Except.ok (freshQueue opts)

/-- Point update of the task store (`Map.set` on an existing key; mutating
the task object held in the map). -/
def updateTask (st : QState) (tid : Nat) (f : Task → Task) : QState :=
  { st with tasks := fun k => if k = tid then (st.tasks k).map f else st.tasks k }

/-- The loop condition of `insertByPriority` (source line 234):
`existingTask && task.priority < existingTask.priority`. -/
def prioGT (tasks : Nat → Option Task) (p : Int) (x : QEntry) : Bool :=
  match tasks x.tid with
  | some t => decide (p < t.priority)
  | none => false

/-- The scan loop of `insertByPriority` (source lines 232-243): insert `e`
immediately before the first entry whose task exists and has priority
strictly greater than `p`; append if none. -/
def insertLoop (tasks : Nat → Option Task) (p : Int) (e : QEntry) :
    List QEntry → List QEntry
  | [] => [e]
  | x :: xs =>
    if prioGT tasks p x then e :: x :: xs else x :: insertLoop tasks p e xs

/-- `insertByPriority(id)`: source lines 228-244.  (The source's
`this.tasks.get(id)!` assertion: on a missing task the model is a no-op;
all call sites pass ids that are present.) -/
def insertByPriority (st : QState) (tid : Nat) : QState :=
  match st.tasks tid with
  | none => st
  | some t =>
    { st with
      queue := insertLoop st.tasks t.priority ⟨tid, st.seqCounter⟩ st.queue
      seqCounter := st.seqCounter + 1 }

/-- The synchronous prefix of `executeTask(id)` (source lines 262-292):
guard on task and handler presence, mark running, stamp start time, bump
attempts, add to the in-flight set, arm the timeout timer with
`this.defaultTimeout` (line 273), and record the pending handler call. -/
def executeTaskStart (st : QState) (tid : Nat) (now : Nat) : QState :=
  match st.tasks tid with
  | none => st
  | some _ =>
    if st.handlers tid then
      let st1 := updateTask st tid fun t =>
        { t with status := TaskStatus.running
                 startedAt := some now
                 attempts := t.attempts + 1 }
      { st1 with
        running := st1.running.insert tid
        invocations :=
          ⟨st1.invCounter, tid, false, true, st1.defaultTimeout⟩ ::
            st1.invocations
        invCounter := st1.invCounter + 1 }
    else st

/-- The `while` loop of `processNext` (source lines 249-259), recursing on
the ready list: while capacity remains, shift the front entry, skip it if its
task is missing or not pending, otherwise start executing it. -/
def processLoop (now : Nat) : QState → List QEntry → QState
  | st, [] => { st with queue := [] }
  | st, e :: rest =>
    if (st.running.length : Int) < st.maxConcurrency then
      let st1 := { st with queue := rest }
      match st1.tasks e.tid with
      | some t =>
        if t.status = TaskStatus.pending then
          processLoop now (executeTaskStart st1 e.tid now) rest
        else processLoop now st1 rest
      | none => processLoop now st1 rest
    else { st with queue := e :: rest }

/-- `processNext()`: source lines 246-260. -/
def processNext (st : QState) (now : Nat) : QState :=
  if st.paused || st.disposed then st else processLoop now st st.queue

/-- `scheduleRetry(id)`: source lines 330-338 and 345 (set the task back to
pending, compute `defaultRetryBaseDelay * 2 ^ (attempts - 1)`, arm the retry
timer with that delay; the delay is also ghost-logged). -/
def scheduleRetry (st : QState) (tid : Nat) : QState :=
  match st.tasks tid with
  | none => st
  | some t =>
    let delay := st.defaultRetryBaseDelay * 2 ^ (t.attempts - 1)
    let st1 := updateTask st tid fun u => { u with status := TaskStatus.pending }
    { st1 with
      retryTimers := fun k => if k = tid then some delay else st1.retryTimers k
      delayLog := st1.delayLog ++ [(tid, delay)] }

/-- The retry timer callback (source lines 339-343): delete the timer's
bookkeeping, re-insert the id by priority, re-invoke the dispatcher.  Firing
is only possible while the timer is armed (present in `retryTimers`). -/
def retryTimerFire (st : QState) (tid : Nat) (now : Nat) : QState :=
  match st.retryTimers tid with
  | none => st
  | some _ =>
    let st1 :=
      { st with retryTimers := fun k => if k = tid then none else st.retryTimers k }
    processNext (insertByPriority st1 tid) now

/-- Look up an in-flight invocation by its token. -/
def findInv (st : QState) (i : Nat) : Option Invocation :=
  st.invocations.find? fun inv => inv.invId = i

/-- The invocation is consumed (the `await` returned and `executeTask`'s
call frame is done). -/
def removeInv (st : QState) (i : Nat) : QState :=
  { st with invocations := st.invocations.filter fun inv => inv.invId != i }

/-- The handler promise resolves (source lines 294-308): if the attempt's
`timedOut` flag is set, return discarding the result; otherwise clear the
timer, mark completed, store the result, stamp completion, leave the
in-flight set, fire the completion callback, re-invoke the dispatcher. -/
def handlerResolve (st : QState) (i : Nat) (value : Nat) (now : Nat) : QState :=
  match findInv st i with
  | none => st
  | some inv =>
    let st1 := removeInv st i
    if inv.timedOut then st1
    else
      let st2 := updateTask st1 inv.tid fun t =>
        { t with status := TaskStatus.completed
                 result := some value
                 completedAt := some now }
      let st3 := { st2 with running := st2.running.filter fun r => r != inv.tid }
      let st4 :=
        { st3 with notifications := st3.notifications ++ [Notif.completed inv.tid] }
      processNext st4 now

/-- The handler promise rejects (source lines 309-327): if the attempt's
`timedOut` flag is set, return discarding the outcome; otherwise clear the
timer, leave the in-flight set, record the error, then either schedule a
retry (`attempts < maxRetries`) or mark failed and fire the failure
callback; re-invoke the dispatcher. -/
def handlerReject (st : QState) (i : Nat) (msg : String) (now : Nat) : QState :=
  match findInv st i with
  | none => st
  | some inv =>
    let st1 := removeInv st i
    if inv.timedOut then st1
    else
      let st2 := { st1 with running := st1.running.filter fun r => r != inv.tid }
      let st3 := updateTask st2 inv.tid fun t => { t with error := some msg }
      match st3.tasks inv.tid with
      | none => processNext st3 now
      | some t =>
        if (t.attempts : Int) < t.maxRetries then
          processNext (scheduleRetry st3 inv.tid) now
        else
          let st4 := updateTask st3 inv.tid fun u =>
            { u with status := TaskStatus.failed, completedAt := some now }
          let st5 :=
            { st4 with notifications := st4.notifications ++ [Notif.failed inv.tid] }
          processNext st5 now

/-- The timeout timer callback (source lines 276-290): latch the attempt's
`timedOut` flag, leave the in-flight set, mark timed_out, stamp completion,
then either schedule a retry (`attempts < maxRetries`) or record the
"Task timed out" error and fire the failure callback; re-invoke the
dispatcher.  Firing is only possible while the timer is armed. -/
def timeoutFire (st : QState) (i : Nat) (now : Nat) : QState :=
  match findInv st i with
  | none => st
  | some inv =>
    if inv.timerActive then
      let st1 :=
        { st with invocations := st.invocations.map fun v : Invocation =>
            if v.invId = i then { v with timedOut := true, timerActive := false }
            else v }
      let st2 := { st1 with running := st1.running.filter fun r => r != inv.tid }
      let st3 := updateTask st2 inv.tid fun t =>
        { t with status := TaskStatus.timed_out, completedAt := some now }
      match st3.tasks inv.tid with
      | none => processNext st3 now
      | some t =>
        if (t.attempts : Int) < t.maxRetries then
          processNext (scheduleRetry st3 inv.tid) now
        else
          let st4 := updateTask st3 inv.tid fun u =>
            { u with error := some "Task timed out" }
          let st5 :=
            { st4 with notifications := st4.notifications ++ [Notif.failed inv.tid] }
          processNext st5 now
    else st

/-- Is a supplied priority rejected by `enqueue`'s validation
(source lines 95-103)? -/
def priorityInvalid : Option Int → Bool
  | some p => decide (p < 1) || decide (5 < p)
  | none => false

/-- Is a supplied maxRetries rejected by `enqueue`'s validation
(source lines 105-110)? -/
def maxRetriesInvalid : Option Int → Bool
  | some m => decide (m < 0)
  | none => false

/-- The task record `enqueue` creates (source lines 113-121). -/
def newTask (st : QState) (cfg : TaskConfig) (now : Nat) : Task where
  status := TaskStatus.pending
  priority := cfg.priority.getD 3
  data := cfg.data
  result := none
  error := none
  attempts := 0
  maxRetries := cfg.maxRetries.getD st.defaultMaxRetries
  createdAt := now
  startedAt := none
  completedAt := none
  cfgRetryBaseDelay := cfg.retryBaseDelay
  cfgTimeout := cfg.timeout

/-- The store/registry part of a successful `enqueue` (source lines
112-124): allocate the id, create the record, register the handler. -/
def enqueueRegister (st : QState) (cfg : TaskConfig) (now : Nat) : QState :=
  let id := st.idCounter + 1
  { st with
    idCounter := id
    tasks := fun k => if k = id then some (newTask st cfg now) else st.tasks k
    handlers := fun k => if k = id then true else st.handlers k }

/-- `enqueue(config)`: source lines 86-129. -/
def enqueue (st : QState) (cfg : TaskConfig) (now : Nat) :
    Except String (Nat × QState) :=
  if st.disposed then Except.error "Cannot enqueue tasks on a disposed queue"
  else if !cfg.handlerOk then Except.error "Task handler must be a function"
  else if priorityInvalid cfg.priority then
    Except.error "Priority must be an integer between 1 and 5"
  else if maxRetriesInvalid cfg.maxRetries then
    Except.error "maxRetries must be a non-negative integer"
  else
    let id := st.idCounter + 1
    Except.ok
      (id, processNext (insertByPriority (enqueueRegister st cfg now) id) now)

/-- The queue state after an `enqueue` call (a throwing call leaves the
state unchanged). -/
def enqueueState (st : QState) (cfg : TaskConfig) (now : Nat) : QState :=
  match enqueue st cfg now with
  | Except.ok (_, st1) => st1
  | Except.error _ => st

/-- `pause()`: source lines 168-170. -/
def pause (st : QState) : QState := { st with paused := true }

/-- `resume()`: source lines 172-175. -/
def resume (st : QState) (now : Nat) : QState :=
  processNext { st with paused := false } now

/-- The body of `clear()`'s removal loop (source lines 186-196): drop the id
from the ready list, the task store and the handler registry, and cancel its
retry timer if one is armed. -/
def clearRemove (s : QState) (id : Nat) : QState :=
  { s with
    queue := s.queue.filter fun e => e.tid != id
    tasks := fun k => if k = id then none else s.tasks k
    handlers := fun k => if k = id then false else s.handlers k
    retryTimers := fun k => if k = id then none else s.retryTimers k }

/-- `clear()`: source lines 177-197.  Collect the ids in the ready list
whose task exists and is pending, then remove each. -/
def clear (st : QState) : QState :=
  let toRemove :=
    (st.queue.filter fun e =>
      match st.tasks e.tid with
      | some t => t.status == TaskStatus.pending
      | none => false).map fun e => e.tid
  toRemove.foldl clearRemove st

/-- `dispose()`: source lines 199-213.  Set the disposed and paused flags,
cancel every timeout timer (so no in-flight attempt's timer can fire any
more) and every retry timer, and empty the ready list. -/
def dispose (st : QState) : QState :=
  { st with
    disposed := true
    paused := true
    invocations := st.invocations.map fun v => { v with timerActive := false }
    retryTimers := fun _ => none
    queue := [] }

/-- One externally observable transition of the queue: a public method call
or an armed timer/promise callback running. -/
inductive Step : QState → QState → Prop
  | enqueueStep (st : QState) (cfg : TaskConfig) (now : Nat) :
      Step st (enqueueState st cfg now)
  | resolveStep (st : QState) (i v now : Nat) :
      Step st (handlerResolve st i v now)
  | rejectStep (st : QState) (i : Nat) (msg : String) (now : Nat) :
      Step st (handlerReject st i msg now)
  | timeoutStep (st : QState) (i now : Nat) :
      Step st (timeoutFire st i now)
  | retryStep (st : QState) (tid now : Nat) :
      Step st (retryTimerFire st tid now)
  | pauseStep (st : QState) : Step st (pause st)
  | resumeStep (st : QState) (now : Nat) : Step st (resume st now)
  | clearStep (st : QState) : Step st (clear st)
  | disposeStep (st : QState) : Step st (dispose st)

/-- States reachable from a successfully constructed queue. -/
inductive Reachable : QState → Prop
  | init (opts : QueueOptions) (st : QState) :
      mkQueue opts = Except.ok st → Reachable st
  | step {st st1 : QState} : Reachable st → Step st st1 → Reachable st1

/-- The priority the ready-list order is judged by: the priority of the
entry's task (entries always have a live task; `0` is a junk default). -/
def prioOf (tasks : Nat → Option Task) (tid : Nat) : Int :=
  match tasks tid with
  | some t => t.priority
  | none => 0

/-- Ready-list order: strictly smaller priority, or equal priority and
inserted no later. -/
def entryLE (tasks : Nat → Option Task) (a b : QEntry) : Prop :=
  prioOf tasks a.tid < prioOf tasks b.tid ∨
    (prioOf tasks a.tid = prioOf tasks b.tid ∧ a.seq ≤ b.seq)

/-- The state invariant: the ready list is sorted by priority-then-insertion
order, its entries are fresh-stamped live tasks, ids never exceed the
counter, and the in-flight set respects the concurrency ceiling. -/
structure Inv (st : QState) : Prop where
  sorted : st.queue.Pairwise (entryLE st.tasks)
  seqBound : ∀ e ∈ st.queue, e.seq < st.seqCounter
  present : ∀ e ∈ st.queue, (st.tasks e.tid).isSome
  taskIdBound : ∀ k, (st.tasks k).isSome → k ≤ st.idCounter
  runBound : (st.running.length : Int) ≤ st.maxConcurrency
  maxPos : 1 ≤ st.maxConcurrency

/-! ## Invariant preservation -/

lemma entryLE_prio_le {tasks : Nat → Option Task} {a b : QEntry}
    (h : entryLE tasks a b) : prioOf tasks a.tid ≤ prioOf tasks b.tid := by
  rcases h with h | ⟨h, _⟩
  · exact le_of_lt h
  · exact le_of_eq h

lemma prioGT_lt {tasks : Nat → Option Task} {p : Int} {x : QEntry}
    (h : prioGT tasks p x = true) : p < prioOf tasks x.tid := by
  unfold prioGT at h
  unfold prioOf
  cases hx : tasks x.tid with
  | none => rw [hx] at h; cases h
  | some t => rw [hx] at h; simpa using h

lemma prioGT_le {tasks : Nat → Option Task} {p : Int} {x : QEntry}
    (h : prioGT tasks p x = false) (hs : (tasks x.tid).isSome) :
    prioOf tasks x.tid ≤ p := by
  unfold prioGT at h
  unfold prioOf
  cases hx : tasks x.tid with
  | none => rw [hx] at hs; cases hs
  | some t =>
    rw [hx] at h
    simp only [decide_eq_false_iff_not, not_lt] at h
    exact h

lemma insertLoop_mem {tasks : Nat → Option Task} {p : Int} {e : QEntry} :
    ∀ {l : List QEntry} {y : QEntry},
      y ∈ insertLoop tasks p e l → y = e ∨ y ∈ l := by
  intro l
  induction l with
  | nil =>
    intro y hy
    simp only [insertLoop, List.mem_singleton] at hy
    exact Or.inl hy
  | cons x xs ih =>
    intro y hy
    unfold insertLoop at hy
    by_cases hgt : prioGT tasks p x
    · rw [if_pos hgt] at hy
      rcases List.mem_cons.mp hy with rfl | hy2
      · exact Or.inl rfl
      · exact Or.inr hy2
    · rw [if_neg hgt] at hy
      rcases List.mem_cons.mp hy with rfl | hy2
      · exact Or.inr (List.mem_cons_self _ _)
      · rcases ih hy2 with rfl | hy3
        · exact Or.inl rfl
        · exact Or.inr (List.mem_cons_of_mem _ hy3)

lemma insertLoop_pairwise {tasks : Nat → Option Task} {p : Int} {e : QEntry}
    (hp : prioOf tasks e.tid = p) :
    ∀ {l : List QEntry},
      (∀ x ∈ l, (tasks x.tid).isSome) →
      (∀ x ∈ l, x.seq ≤ e.seq) →
      l.Pairwise (entryLE tasks) →
      (insertLoop tasks p e l).Pairwise (entryLE tasks) := by
  intro l
  induction l with
  | nil =>
    intro _ _ _
    simp [insertLoop]
  | cons x xs ih =>
    intro hpres hseq hs
    rcases List.pairwise_cons.mp hs with ⟨hx_rest, hxs⟩
    unfold insertLoop
    by_cases hgt : prioGT tasks p x
    · rw [if_pos hgt]
      have hlt : p < prioOf tasks x.tid := prioGT_lt hgt
      refine List.pairwise_cons.mpr ⟨?_, hs⟩
      intro b hb
      rcases List.mem_cons.mp hb with rfl | hb2
      · exact Or.inl (by rw [hp]; exact hlt)
      · refine Or.inl ?_
        rw [hp]
        exact lt_of_lt_of_le hlt (entryLE_prio_le (hx_rest b hb2))
    · rw [if_neg (by simpa using hgt)]
      have hxle : entryLE tasks x e := by
        have hle : prioOf tasks x.tid ≤ p :=
          prioGT_le (by simpa using hgt) (hpres x (List.mem_cons_self _ _))
        rcases lt_or_eq_of_le hle with hlt | heq
        · exact Or.inl (by rw [hp]; exact hlt)
        · exact Or.inr ⟨by rw [hp, heq], hseq x (List.mem_cons_self _ _)⟩
      refine List.pairwise_cons.mpr ⟨?_, ?_⟩
      · intro b hb
        rcases insertLoop_mem hb with rfl | hb2
        · exact hxle
        · exact hx_rest b hb2
      · exact ih (fun y hy => hpres y (List.mem_cons_of_mem _ hy))
          (fun y hy => hseq y (List.mem_cons_of_mem _ hy)) hxs

lemma pairwise_entryLE_congr {tasks1 tasks2 : Nat → Option Task}
    {l : List QEntry}
    (h : ∀ e ∈ l, prioOf tasks1 e.tid = prioOf tasks2 e.tid)
    (hp : l.Pairwise (entryLE tasks1)) : l.Pairwise (entryLE tasks2) := by
  refine List.Pairwise.imp_of_mem ?_ hp
  intro a b ha hb hab
  unfold entryLE at hab ⊢
  rw [← h a ha, ← h b hb]
  exact hab

lemma insertByPriority_inv {st : QState} {tid : Nat} (h : Inv st) :
    Inv (insertByPriority st tid) := by
  unfold insertByPriority
  cases ht : st.tasks tid with
  | none => exact h
  | some t =>
    refine ⟨?_, ?_, ?_, h.taskIdBound, h.runBound, h.maxPos⟩
    · exact insertLoop_pairwise (by simp [prioOf, ht]) h.present
        (fun x hx => le_of_lt (h.seqBound x hx)) h.sorted
    · intro x hx
      rcases insertLoop_mem hx with rfl | hx2
      · exact Nat.lt_succ_self _
      · exact Nat.lt_succ_of_lt (h.seqBound x hx2)
    · intro x hx
      rcases insertLoop_mem hx with rfl | hx2
      · simp [ht]
      · exact h.present x hx2

lemma updateTask_prioOf {f : Task → Task}
    (hf : ∀ t, (f t).priority = t.priority) (st : QState) (tid k : Nat) :
    prioOf (updateTask st tid f).tasks k = prioOf st.tasks k := by
  unfold updateTask prioOf
  by_cases hk : k = tid
  · subst hk
    simp only [if_pos rfl]
    cases st.tasks k with
    | none => rfl
    | some t => simp [hf]
  · simp [hk]

lemma updateTask_isSome (st : QState) (tid : Nat) (f : Task → Task) (k : Nat) :
    ((updateTask st tid f).tasks k).isSome = (st.tasks k).isSome := by
  unfold updateTask
  by_cases hk : k = tid
  · subst hk; simp
  · simp [hk]

lemma updateTask_inv {st : QState} {tid : Nat} {f : Task → Task}
    (hf : ∀ t, (f t).priority = t.priority) (h : Inv st) :
    Inv (updateTask st tid f) := by
  refine ⟨?_, h.seqBound, ?_, ?_, h.runBound, h.maxPos⟩
  · exact pairwise_entryLE_congr
      (fun e _ => (updateTask_prioOf hf st tid e.tid).symm) h.sorted
  · intro e he
    rw [updateTask_isSome]
    exact h.present e he
  · intro k hk
    rw [updateTask_isSome] at hk
    exact h.taskIdBound k hk

lemma set_queue_eq {st : QState} {q : List QEntry} (h : st.queue = q) :
    { st with queue := q } = st := by
  cases st
  obtain rfl : _ = q := h
  rfl

lemma executeTaskStart_queue (st : QState) (tid now : Nat) :
    (executeTaskStart st tid now).queue = st.queue := by
  unfold executeTaskStart
  cases st.tasks tid with
  | none => rfl
  | some t =>
    by_cases hh : st.handlers tid
    · simp only [if_pos hh]; rfl
    · simp only [if_neg hh]

lemma length_insert_le (a : Nat) (l : List Nat) :
    (l.insert a).length ≤ l.length + 1 := by
  by_cases h : a ∈ l
  · simp [List.insert_of_mem h]
  · simp [List.insert_of_not_mem h]

lemma executeTaskStart_inv {st : QState} {tid now : Nat} (h : Inv st)
    (hcap : (st.running.length : Int) < st.maxConcurrency) :
    Inv (executeTaskStart st tid now) := by
  unfold executeTaskStart
  cases ht : st.tasks tid with
  | none => exact h
  | some t =>
    by_cases hh : st.handlers tid
    · simp only [if_pos hh]
      have h1 : Inv (updateTask st tid fun t =>
          { t with status := TaskStatus.running
                   startedAt := some now
                   attempts := t.attempts + 1 }) :=
        updateTask_inv (fun _ => rfl) h
      refine ⟨h1.sorted, h1.seqBound, h1.present, h1.taskIdBound, ?_, h1.maxPos⟩
      have hlen : ((st.running.insert tid).length : Int)
          ≤ (st.running.length : Int) + 1 := by
        exact_mod_cast length_insert_le tid st.running
      show ((st.running.insert tid).length : Int) ≤ st.maxConcurrency
      omega
    · simp only [if_neg hh]
      exact h

lemma inv_queue_tail {st : QState} {e : QEntry} {rest : List QEntry}
    (h : Inv { st with queue := e :: rest }) : Inv { st with queue := rest } := by
  refine ⟨?_, ?_, ?_, h.taskIdBound, h.runBound, h.maxPos⟩
  · exact (List.pairwise_cons.mp h.sorted).2
  · intro x hx
    exact h.seqBound x (List.mem_cons_of_mem _ hx)
  · intro x hx
    exact h.present x (List.mem_cons_of_mem _ hx)

lemma processLoop_inv {now : Nat} :
    ∀ (q : List QEntry) (st : QState),
      Inv { st with queue := q } → Inv (processLoop now st q) := by
  intro q
  induction q with
  | nil =>
    intro st h
    exact h
  | cons e rest ih =>
    intro st h
    unfold processLoop
    by_cases hcap : (st.running.length : Int) < st.maxConcurrency
    · rw [if_pos hcap]
      have hrest : Inv { st with queue := rest } := inv_queue_tail h
      cases hte : st.tasks e.tid with
      | some t =>
        by_cases hp : t.status = TaskStatus.pending
        · simp only [hte, if_pos hp]
          have hx : Inv (executeTaskStart { st with queue := rest } e.tid now) :=
            executeTaskStart_inv hrest hcap
          have hq : { executeTaskStart { st with queue := rest } e.tid now
              with queue := rest } =
              executeTaskStart { st with queue := rest } e.tid now :=
            set_queue_eq (executeTaskStart_queue _ _ _)
          exact ih _ (by rw [hq]; exact hx)
        · simp only [hte, if_neg hp]
          exact ih _ hrest
      | none =>
        simp only [hte]
        exact ih _ hrest
    · rw [if_neg hcap]
      exact h

lemma processNext_inv {st : QState} {now : Nat} (h : Inv st) :
    Inv (processNext st now) := by
  unfold processNext
  by_cases hp : st.paused || st.disposed
  · rw [if_pos hp]; exact h
  · rw [if_neg hp]
    exact processLoop_inv st.queue st (by rw [set_queue_eq rfl]; exact h)

lemma scheduleRetry_inv {st : QState} {tid : Nat} (h : Inv st) :
    Inv (scheduleRetry st tid) := by
  unfold scheduleRetry
  cases ht : st.tasks tid with
  | none => exact h
  | some t =>
    have h1 : Inv (updateTask st tid fun u =>
        { u with status := TaskStatus.pending }) :=
      updateTask_inv (fun _ => rfl) h
    exact ⟨h1.sorted, h1.seqBound, h1.present, h1.taskIdBound, h1.runBound,
      h1.maxPos⟩

lemma removeInv_inv {st : QState} {i : Nat} (h : Inv st) : Inv (removeInv st i) :=
  ⟨h.sorted, h.seqBound, h.present, h.taskIdBound, h.runBound, h.maxPos⟩

lemma runningFilter_inv {st : QState} {p : Nat → Bool} (h : Inv st) :
    Inv { st with running := st.running.filter p } := by
  refine ⟨h.sorted, h.seqBound, h.present, h.taskIdBound, ?_, h.maxPos⟩
  have h1 := List.length_filter_le p st.running
  have h2 := h.runBound
  show ((st.running.filter p).length : Int) ≤ st.maxConcurrency
  omega

lemma notifAppend_inv {st : QState} {l : List Notif} (h : Inv st) :
    Inv { st with notifications := st.notifications ++ l } :=
  ⟨h.sorted, h.seqBound, h.present, h.taskIdBound, h.runBound, h.maxPos⟩

lemma handlerResolve_inv {st : QState} {i v now : Nat} (h : Inv st) :
    Inv (handlerResolve st i v now) := by
  unfold handlerResolve
  split
  · exact h
  · next inv _ =>
    split
    · exact removeInv_inv h
    · exact processNext_inv (notifAppend_inv (runningFilter_inv
        (updateTask_inv (fun _ => rfl) (removeInv_inv h))))

lemma handlerReject_inv {st : QState} {i : Nat} {msg : String} {now : Nat}
    (h : Inv st) : Inv (handlerReject st i msg now) := by
  unfold handlerReject
  split
  · exact h
  · next inv _ =>
    split
    · exact removeInv_inv h
    · have h3 : Inv (updateTask { removeInv st i with
          running := (removeInv st i).running.filter fun r => r != inv.tid }
          inv.tid fun t => { t with error := some msg }) :=
        updateTask_inv (fun _ => rfl) (runningFilter_inv (removeInv_inv h))
      simp only []
      split
      · exact processNext_inv h3
      · next t _ =>
        split
        · exact processNext_inv (scheduleRetry_inv h3)
        · exact processNext_inv (notifAppend_inv
            (updateTask_inv (fun _ => rfl) h3))

lemma timeoutFire_inv {st : QState} {i now : Nat} (h : Inv st) :
    Inv (timeoutFire st i now) := by
  unfold timeoutFire
  split
  · exact h
  · next inv _ =>
    split
    · have h3 : Inv (updateTask { st with
          invocations := st.invocations.map
            (fun v : Invocation =>
              if v.invId = i then
                { v with timedOut := true, timerActive := false }
              else v)
          running := st.running.filter fun r => r != inv.tid }
          inv.tid fun t =>
          { t with status := TaskStatus.timed_out, completedAt := some now }) :=
        updateTask_inv (fun _ => rfl) (runningFilter_inv
          (⟨h.sorted, h.seqBound, h.present, h.taskIdBound, h.runBound,
            h.maxPos⟩ : Inv { st with
              invocations := st.invocations.map
                (fun v : Invocation =>
                  if v.invId = i then
                    { v with timedOut := true, timerActive := false }
                  else v) }))
      simp only []
      split
      · exact processNext_inv h3
      · next t _ =>
        split
        · exact processNext_inv (scheduleRetry_inv h3)
        · exact processNext_inv (notifAppend_inv
            (updateTask_inv (fun _ => rfl) h3))
    · exact h

lemma retryTimerFire_inv {st : QState} {tid now : Nat} (h : Inv st) :
    Inv (retryTimerFire st tid now) := by
  unfold retryTimerFire
  cases st.retryTimers tid with
  | none => exact h
  | some d =>
    exact processNext_inv (insertByPriority_inv
      ⟨h.sorted, h.seqBound, h.present, h.taskIdBound, h.runBound, h.maxPos⟩)

lemma enqueueRegister_inv {st : QState} {cfg : TaskConfig} {now : Nat}
    (h : Inv st) : Inv (enqueueRegister st cfg now) := by
  have hne : ∀ e ∈ st.queue, e.tid ≠ st.idCounter + 1 := by
    intro e he hcontra
    have h1 := h.taskIdBound e.tid (h.present e he)
    omega
  refine ⟨?_, h.seqBound, ?_, ?_, h.runBound, h.maxPos⟩
  · refine pairwise_entryLE_congr (fun e he => ?_) h.sorted
    simp [enqueueRegister, prioOf, hne e he]
  · intro e he
    simp only [enqueueRegister]
    simp only [hne e he, if_false]
    exact h.present e he
  · intro k hk
    simp only [enqueueRegister] at hk ⊢
    by_cases hki : k = st.idCounter + 1
    · omega
    · simp only [hki, if_false] at hk
      have := h.taskIdBound k hk
      omega

lemma enqueueState_inv {st : QState} {cfg : TaskConfig} {now : Nat}
    (h : Inv st) : Inv (enqueueState st cfg now) := by
  unfold enqueueState enqueue
  split
  · next heq =>
    split at heq
    · cases heq
    · split at heq
      · cases heq
      · split at heq
        · cases heq
        · split at heq
          · cases heq
          · cases heq
            exact processNext_inv (insertByPriority_inv (enqueueRegister_inv h))
  · exact h

lemma clearRemove_inv {s : QState} {id : Nat} (h : Inv s) :
    Inv (clearRemove s id) := by
  refine ⟨?_, ?_, ?_, ?_, h.runBound, h.maxPos⟩
  · refine pairwise_entryLE_congr (fun e he => ?_)
      (h.sorted.sublist (List.filter_sublist s.queue))
    have hne : e.tid ≠ id := by
      have := (List.mem_filter.mp he).2
      simpa using this
    simp [clearRemove, prioOf, hne]
  · intro e he
    exact h.seqBound e (List.mem_filter.mp he).1
  · intro e he
    have hne : e.tid ≠ id := by
      have := (List.mem_filter.mp he).2
      simpa using this
    show ((if e.tid = id then none else s.tasks e.tid)).isSome
    rw [if_neg hne]
    exact h.present e (List.mem_filter.mp he).1
  · intro k hk
    by_cases hki : k = id
    · subst hki
      simp only [clearRemove, if_pos rfl] at hk
      cases hk
    · show k ≤ s.idCounter
      refine h.taskIdBound k ?_
      simpa [clearRemove, hki] using hk

lemma foldl_clearRemove_inv :
    ∀ (l : List Nat) (s : QState), Inv s → Inv (l.foldl clearRemove s) := by
  intro l
  induction l with
  | nil => intro s h; exact h
  | cons a rest ih =>
    intro s h
    exact ih _ (clearRemove_inv h)

lemma clear_inv {st : QState} (h : Inv st) : Inv (clear st) :=
  foldl_clearRemove_inv _ st h

lemma dispose_inv {st : QState} (h : Inv st) : Inv (dispose st) := by
  refine ⟨?_, ?_, ?_, h.taskIdBound, h.runBound, h.maxPos⟩
  · exact List.Pairwise.nil
  · intro e he; cases he
  · intro e he; cases he

lemma pause_inv {st : QState} (h : Inv st) : Inv (pause st) :=
  ⟨h.sorted, h.seqBound, h.present, h.taskIdBound, h.runBound, h.maxPos⟩

lemma resume_inv {st : QState} {now : Nat} (h : Inv st) :
    Inv (resume st now) :=
  processNext_inv
    ⟨h.sorted, h.seqBound, h.present, h.taskIdBound, h.runBound, h.maxPos⟩

lemma mkQueue_inv {opts : QueueOptions} {st : QState}
    (h : mkQueue opts = Except.ok st) : Inv st := by
  unfold mkQueue at h
  split at h
  · cases h
  · next hge =>
    cases h
    refine ⟨List.Pairwise.nil, ?_, ?_, ?_, ?_, ?_⟩
    · intro e he; cases he
    · intro e he; cases he
    · intro k hk; cases hk
    · show ((0 : Nat) : Int) ≤ opts.maxConcurrency.getD 5
      omega
    · show (1 : Int) ≤ opts.maxConcurrency.getD 5
      omega

/-- Every reachable queue state satisfies the invariant. -/
theorem reachable_inv {st : QState} (h : Reachable st) : Inv st := by
  induction h with
  | init opts st h0 => exact mkQueue_inv h0
  | step _ hs ih =>
    cases hs with
    | enqueueStep cfg now => exact enqueueState_inv ih
    | resolveStep i v now => exact handlerResolve_inv ih
    | rejectStep i msg now => exact handlerReject_inv ih
    | timeoutStep i now => exact timeoutFire_inv ih
    | retryStep tid now => exact retryTimerFire_inv ih
    | pauseStep => exact pause_inv ih
    | resumeStep now => exact resume_inv ih
    | clearStep => exact clear_inv ih
    | disposeStep => exact dispose_inv ih

/-! ## Dispatch order -/

lemma executeTaskStart_running_mono {st : QState} {tid now x : Nat}
    (h : x ∈ st.running) : x ∈ (executeTaskStart st tid now).running := by
  unfold executeTaskStart
  split
  · exact h
  · split
    · exact List.mem_insert_of_mem h
    · exact h

lemma processLoop_running_mono {now : Nat} :
    ∀ (q : List QEntry) (st : QState) (x : Nat),
      x ∈ st.running → x ∈ (processLoop now st q).running := by
  intro q
  induction q with
  | nil => intro st x h; exact h
  | cons e rest ih =>
    intro st x h
    unfold processLoop
    simp only []
    split
    · split
      · split
        · exact ih _ _ (executeTaskStart_running_mono h)
        · exact ih _ _ h
      · exact ih _ _ h
    · exact h

lemma executeTaskStart_mem_running {st : QState} {tid now : Nat}
    (ht : (st.tasks tid).isSome) (hh : st.handlers tid = true) :
    tid ∈ (executeTaskStart st tid now).running := by
  unfold executeTaskStart
  split
  · next heq => rw [heq] at ht; cases ht
  · rw [if_pos hh]
    exact List.mem_insert_self tid _

/-! ## Invocation bookkeeping -/

lemma find_map_flag (i : Nat) :
    ∀ l : List Invocation,
      (l.map (fun v : Invocation =>
        if v.invId = i then { v with timedOut := true, timerActive := false }
        else v)).find? (fun inv => inv.invId = i) =
      (l.find? (fun inv => inv.invId = i)).map
        (fun v => { v with timedOut := true, timerActive := false }) := by
  intro l
  induction l with
  | nil => rfl
  | cons v rest ih =>
    by_cases h : v.invId = i
    · simp only [List.map_cons, if_pos h]
      rw [List.find?_cons_of_pos _ (by simpa using h),
        List.find?_cons_of_pos _ (by simpa using h)]
      rfl
    · simp only [List.map_cons, if_neg h]
      rw [List.find?_cons_of_neg _ (by simpa using h),
        List.find?_cons_of_neg _ (by simpa using h)]
      exact ih

lemma findInv_flag_state (st : QState) (i : Nat) (X : QState)
    (hX : X.invocations = st.invocations.map
      (fun v : Invocation =>
        if v.invId = i then { v with timedOut := true, timerActive := false }
        else v)) :
    findInv X i = (findInv st i).map
      (fun v => { v with timedOut := true, timerActive := false }) := by
  unfold findInv
  rw [hX]
  exact find_map_flag i st.invocations

lemma scheduleRetry_invocations (st : QState) (tid : Nat) :
    (scheduleRetry st tid).invocations = st.invocations ∧
    (scheduleRetry st tid).invCounter = st.invCounter := by
  unfold scheduleRetry
  split
  · exact ⟨rfl, rfl⟩
  · exact ⟨rfl, rfl⟩

lemma executeTaskStart_findInv {st : QState} {tid now i : Nat}
    (h : i < st.invCounter) :
    findInv (executeTaskStart st tid now) i = findInv st i ∧
    i < (executeTaskStart st tid now).invCounter := by
  unfold executeTaskStart
  split
  · exact ⟨rfl, h⟩
  · split
    · refine ⟨?_, ?_⟩
      · show List.find? _ (_ :: _) = _
        rw [List.find?_cons_of_neg _ (by
          simp only [decide_eq_true_eq]
          show ¬st.invCounter = i
          omega)]
        rfl
      · show i < st.invCounter + 1
        omega
    · exact ⟨rfl, h⟩

lemma processLoop_findInv {now : Nat} :
    ∀ (q : List QEntry) (st : QState) (i : Nat), i < st.invCounter →
      findInv (processLoop now st q) i = findInv st i ∧
      i < (processLoop now st q).invCounter := by
  intro q
  induction q with
  | nil => intro st i h; exact ⟨rfl, h⟩
  | cons e rest ih =>
    intro st i h
    unfold processLoop
    simp only []
    split
    · split
      · split
        · have h1 := @executeTaskStart_findInv { st with queue := rest }
            e.tid now i h
          have h2 := ih (executeTaskStart { st with queue := rest } e.tid now)
            i h1.2
          exact ⟨h2.1.trans h1.1, h2.2⟩
        · exact ih _ i h
      · exact ih _ i h
    · exact ⟨rfl, h⟩

lemma processNext_findInv {st : QState} {now i : Nat} (h : i < st.invCounter) :
    findInv (processNext st now) i = findInv st i := by
  unfold processNext
  split
  · rfl
  · exact (processLoop_findInv st.queue st i h).1

/-! ## Claim theorems -/

/-- C1: the ready list always satisfies priority-then-FIFO order — at every
reachable state, any two entries at positions `i < j` have strictly
increasing priority or equal priority and non-decreasing insertion stamps
(`insertByPriority` places a new entry, fresh or retried, after every entry
of priority at most its own and before the first strictly greater, so the
`Pairwise` order is maintained); and the dispatcher pops from the front, so
with capacity free and the queue live the head — whose priority is minimal
among all pending entries — is the task that starts executing. -/
theorem C1_ready_list_priority_fifo (st : QState) :
    (Reachable st → st.queue.Pairwise (entryLE st.tasks)) ∧
    (Inv st → st.paused = false → st.disposed = false →
      ∀ e rest t now, st.queue = e :: rest →
        (st.running.length : Int) < st.maxConcurrency →
        st.tasks e.tid = some t → t.status = TaskStatus.pending →
        st.handlers e.tid = true →
        e.tid ∈ (processNext st now).running ∧
        ∀ x ∈ rest, prioOf st.tasks e.tid ≤ prioOf st.tasks x.tid) := by
  constructor
  · intro h
    exact (reachable_inv h).sorted
  · intro hinv hp hd e rest t now hq hcap ht hst hh
    constructor
    · unfold processNext
      rw [hp, hd, hq]
      simp only [Bool.or_self, Bool.false_eq_true, if_false]
      unfold processLoop
      simp only []
      rw [if_pos hcap]
      have ht2 : (({ st with queue := rest } : QState).tasks e.tid) = some t := ht
      rw [ht2]
      simp only []
      rw [if_pos hst]
      exact processLoop_running_mono rest _ e.tid
        (executeTaskStart_mem_running (by rw [ht2]; rfl) hh)
    · intro x hx
      have hs := hinv.sorted
      rw [hq] at hs
      exact entryLE_prio_le ((List.pairwise_cons.mp hs).1 x hx)

/-- The task record and queue state used to witness the dispatch half of C1:
a single pending task of priority 3 sitting at the head of the ready list of
a queue with a free slot. -/
def wTask : Task :=
  ⟨TaskStatus.pending, 3, 0, none, none, 0, 3, 0, none, none, none, none⟩

def wState : QState where
  tasks := fun k => if k = 1 then some wTask else none
  queue := [⟨1, 0⟩]
  running := []
  invocations := []
  retryTimers := fun _ => none
  handlers := fun k => k == 1
  paused := false
  disposed := false
  idCounter := 1
  maxConcurrency := 1
  defaultTimeout := 30000
  defaultMaxRetries := 3
  defaultRetryBaseDelay := 1000
  seqCounter := 1
  invCounter := 0
  notifications := []
  delayLog := []

lemma wState_inv : Inv wState := by
  refine ⟨?_, ?_, ?_, ?_, ?_, ?_⟩
  · simp [wState]
  · intro e he
    simp [wState] at he
    simp [he, wState]
  · intro e he
    simp [wState] at he
    simp [he, wState]
  · intro k hk
    by_cases h1 : k = 1
    · subst h1; decide
    · simp [wState, h1] at hk
  · show ((0 : Nat) : Int) ≤ 1
    decide
  · show (1 : Int) ≤ 1
    decide

theorem C1_ready_list_priority_fifo_witness :
    (freshQueue ⟨none, none, none, none⟩).queue.Pairwise
      (entryLE (freshQueue ⟨none, none, none, none⟩).tasks) ∧
    1 ∈ (processNext wState 0).running :=
  ⟨(C1_ready_list_priority_fifo _).1
      (Reachable.init ⟨none, none, none, none⟩ _ rfl),
    ((C1_ready_list_priority_fifo wState).2 wState_inv rfl rfl ⟨1, 0⟩ [] wTask 0
      rfl (by decide) (by decide) rfl rfl).1⟩

/-- C8: at every reachable state the in-flight set is no larger than the
configured `maxConcurrency`; `maxConcurrency` is at least 1 at every
reachable state, and the constructor rejects any effective value below 1. -/
theorem C8_concurrency_ceiling (st : QState) (h : Reachable st) :
    (st.running.length : Int) ≤ st.maxConcurrency ∧
    (1 : Int) ≤ st.maxConcurrency ∧
    ∀ opts : QueueOptions, opts.maxConcurrency.getD 5 < 1 →
      mkQueue opts = Except.error "maxConcurrency must be at least 1" := by
  refine ⟨(reachable_inv h).runBound, (reachable_inv h).maxPos, ?_⟩
  intro opts hlt
  unfold mkQueue
  rw [if_pos hlt]

/-- C6: the timeout timer firing latches the attempt's `timedOut` flag, and
a settlement (resolution or rejection alike) of an attempt whose flag is
latched is discarded: the only state change is that the in-flight invocation
record is consumed — tasks (status/result/error), the in-flight set, the
retry timers, the ready list and the notification log are all untouched. -/
theorem C6_timeout_wins_settlement_discarded (st : QState) (i : Nat)
    (inv : Invocation) (hfind : findInv st i = some inv) :
    (inv.timedOut = true →
      (∀ v now, handlerResolve st i v now = removeInv st i) ∧
      (∀ msg now, handlerReject st i msg now = removeInv st i) ∧
      (removeInv st i).tasks = st.tasks ∧
      (removeInv st i).running = st.running ∧
      (removeInv st i).notifications = st.notifications ∧
      (removeInv st i).retryTimers = st.retryTimers ∧
      (removeInv st i).queue = st.queue) ∧
    (inv.timerActive = true → i < st.invCounter → ∀ now,
      findInv (timeoutFire st i now) i =
        some { inv with timedOut := true, timerActive := false }) := by
  constructor
  · intro hto
    refine ⟨?_, ?_, rfl, rfl, rfl, rfl, rfl⟩
    · intro v now
      unfold handlerResolve
      simp only [hfind, hto, if_true]
    · intro msg now
      unfold handlerReject
      simp only [hfind, hto, if_true]
  · intro hact hilow now
    unfold timeoutFire
    simp only [hfind]
    rw [if_pos hact]
    split
    · next hnone =>
      refine (processNext_findInv ?_).trans ?_
      · exact hilow
      · rw [findInv_flag_state st i _ rfl, hfind]
        rfl
    · next t hsome =>
      split
      · have hs := scheduleRetry_invocations (updateTask { st with
          invocations := st.invocations.map
            (fun v : Invocation =>
              if v.invId = i then
                { v with timedOut := true, timerActive := false }
              else v)
          running := st.running.filter fun r => r != inv.tid }
          inv.tid fun t =>
          { t with status := TaskStatus.timed_out, completedAt := some now })
          inv.tid
        refine (processNext_findInv ?_).trans ?_
        · rw [hs.2]; exact hilow
        · rw [findInv_flag_state st i _ (hs.1.trans rfl), hfind]
          rfl
      · refine (processNext_findInv ?_).trans ?_
        · exact hilow
        · rw [findInv_flag_state st i _ rfl, hfind]
          rfl

theorem C6_timeout_wins_settlement_discarded_witness :
    handlerResolve (timeoutFire (enqueueState
        (freshQueue ⟨none, none, none, some 100⟩)
        ⟨true, 0, none, some 3, none, none⟩ 0) 0 3) 0 99 4 =
      removeInv (timeoutFire (enqueueState
        (freshQueue ⟨none, none, none, some 100⟩)
        ⟨true, 0, none, some 3, none, none⟩ 0) 0 3) 0 ∧
    findInv (timeoutFire (enqueueState
        (freshQueue ⟨none, none, none, some 100⟩)
        ⟨true, 0, none, some 3, none, none⟩ 0) 0 3) 0 =
      some ⟨0, 1, true, false, 30000⟩ := by
  constructor
  · exact ((C6_timeout_wins_settlement_discarded _ 0 ⟨0, 1, true, false, 30000⟩
      (by decide)).1 rfl).1 99 4
  · exact (C6_timeout_wins_settlement_discarded
      (enqueueState (freshQueue ⟨none, none, none, some 100⟩)
        ⟨true, 0, none, some 3, none, none⟩ 0) 0 ⟨0, 1, false, true, 30000⟩
      (by decide)).2 rfl (by decide) 3

theorem C8_concurrency_ceiling_witness :
    ((freshQueue ⟨none, none, none, none⟩).running.length : Int) ≤
        (freshQueue ⟨none, none, none, none⟩).maxConcurrency ∧
    mkQueue ⟨some 0, none, none, none⟩ =
      Except.error "maxConcurrency must be at least 1" :=
  ⟨(C8_concurrency_ceiling _
      (Reachable.init ⟨none, none, none, none⟩ _ rfl)).1,
    (C8_concurrency_ceiling _
      (Reachable.init ⟨none, none, none, none⟩ _ rfl)).2.2
      ⟨some 0, none, none, none⟩ (by decide)⟩

lemma processNext_disposed {st : QState} {now : Nat} (h : st.disposed = true) :
    processNext st now = st := by
  unfold processNext
  rw [if_pos (by rw [h, Bool.or_true])]

/-- C2 (amended): dispatch always arms the timeout timer with the queue's
`defaultTimeout` (source line 273 reads `this.defaultTimeout`); the
`timeout` field accepted in `TaskConfig` is never read, whatever value the
task was submitted with. -/
theorem C2_amended_default_timeout_always (st : QState) (tid now : Nat)
    (t : Task) (ht : st.tasks tid = some t) (hh : st.handlers tid = true) :
    (executeTaskStart st tid now).invocations =
      ⟨st.invCounter, tid, false, true, st.defaultTimeout⟩ ::
        st.invocations := by
  unfold executeTaskStart
  simp only [ht, hh, if_true]
  rfl

/-- The queue after submitting a task with a per-task timeout override of 5
to a queue whose default timeout is 30000. -/
def trC2 : QState :=
  enqueueState (freshQueue ⟨none, none, none, none⟩)
    ⟨true, 0, none, none, none, some 5⟩ 0

/-- C2 (counterexample): the task was submitted with `timeout := 5`, yet the
timer for its first attempt was armed with 30000, not 5. -/
theorem C2_counterexample_override_ignored :
    (trC2.tasks 1).map Task.cfgTimeout = some (some 5) ∧
    (findInv trC2 0).map Invocation.timeoutDuration = some 30000 ∧
    ¬(findInv trC2 0).map Invocation.timeoutDuration = some 5 := by
  refine ⟨?_, ?_, ?_⟩ <;> decide

theorem C2_amended_default_timeout_always_witness :
    (executeTaskStart wState 1 0).invocations =
      ⟨wState.invCounter, 1, false, true, wState.defaultTimeout⟩ ::
        wState.invocations :=
  C2_amended_default_timeout_always wState 1 0 wTask (by decide) (by decide)

/-- The queue after a task (submitted with `maxRetries = 3`, backoff base
100) has failed its first attempt and is waiting out its retry backoff,
followed by a `clear()` call. -/
def trC3pre : QState :=
  handlerReject (enqueueState (freshQueue ⟨none, none, none, some 100⟩)
    ⟨true, 0, none, some 3, none, none⟩ 0) 0 "boom" 1

def trC3 : QState := clear trC3pre

/-- C3 (failing run): at `trC3pre` task 1 is `pending` (waiting out its
backoff, not in the ready list), so the claim requires `clear()` to remove
it; instead `clear()` — which only scans the ready list — leaves its task
record, its handler registration and its armed retry timer in place, and
when the retry timer later fires the cleared-in-intent task runs anyway. -/
theorem C3_clear_misses_backoff_task :
    (trC3pre.tasks 1).map Task.status = some TaskStatus.pending ∧
    trC3pre.queue = [] ∧
    (trC3.tasks 1).map Task.status = some TaskStatus.pending ∧
    trC3.handlers 1 = true ∧
    trC3.retryTimers 1 = some 100 ∧
    ((retryTimerFire trC3 1 10).tasks 1).map Task.status =
      some TaskStatus.running := by
  refine ⟨?_, ?_, ?_, ?_, ?_, ?_⟩ <;> decide

/-- C4 (amended): after `dispose()` a still-pending handler invocation that
later resolves is processed normally, not discarded: because `dispose`
cleared the timeout timers, the attempt's `timedOut` flag can no longer be
latched, so the settlement path runs — the task is marked completed, the
result stored, and the completion callback fires.  (Only an attempt whose
timeout had already fired before `dispose` is discarded.) -/
theorem C4_amended_settlement_after_dispose (st : QState) (i : Nat)
    (inv : Invocation) (t : Task) (v now : Nat)
    (hdisp : st.disposed = true) (hfind : findInv st i = some inv)
    (hnt : inv.timedOut = false) (ht : st.tasks inv.tid = some t) :
    (handlerResolve st i v now).tasks inv.tid =
      some { t with status := TaskStatus.completed, result := some v,
                    completedAt := some now } ∧
    (handlerResolve st i v now).notifications =
      st.notifications ++ [Notif.completed inv.tid] := by
  have key : handlerResolve st i v now =
      { updateTask (removeInv st i) inv.tid (fun u =>
          { u with status := TaskStatus.completed, result := some v,
                   completedAt := some now }) with
        running := (removeInv st i).running.filter fun r => r != inv.tid
        notifications := st.notifications ++ [Notif.completed inv.tid] } := by
    unfold handlerResolve
    simp only [hfind, hnt, Bool.false_eq_true, if_false]
    exact processNext_disposed hdisp
  rw [key]
  constructor
  · show (if inv.tid = inv.tid then
        ((removeInv st i).tasks inv.tid).map _ else _) = _
    rw [if_pos rfl]
    show (st.tasks inv.tid).map _ = _
    rw [ht]
    rfl
  · rfl

/-- The queue after submitting one task (immediately dispatched) and then
calling `dispose()` while its handler is still in flight. -/
def trC4 : QState :=
  dispose (enqueueState (freshQueue ⟨none, none, none, none⟩)
    ⟨true, 0, none, some 3, none, none⟩ 0)

/-- C4 (counterexample): after `dispose()`, the in-flight handler resolving
with 42 marks the task completed, stores the result, and fires the
completion callback — the settlement is not discarded as claimed. -/
theorem C4_counterexample_settlement_not_discarded :
    (trC4.tasks 1).map Task.status = some TaskStatus.running ∧
    trC4.notifications = [] ∧
    ((handlerResolve trC4 0 42 7).tasks 1).map
      (fun t => (t.status, t.result)) =
      some (TaskStatus.completed, some 42) ∧
    (handlerResolve trC4 0 42 7).notifications = [Notif.completed 1] := by
  refine ⟨?_, ?_, ?_, ?_⟩ <;> decide

theorem C4_amended_settlement_after_dispose_witness :
    (handlerResolve trC4 0 42 7).tasks 1 =
      some { status := TaskStatus.completed, priority := 3, data := 0,
             result := some 42, error := none, attempts := 1, maxRetries := 3,
             createdAt := 0, startedAt := some 0, completedAt := some 7,
             cfgRetryBaseDelay := none, cfgTimeout := none } ∧
    (handlerResolve trC4 0 42 7).notifications =
      trC4.notifications ++ [Notif.completed 1] :=
  C4_amended_settlement_after_dispose trC4 0 ⟨0, 1, false, false, 30000⟩
    ⟨TaskStatus.running, 3, 0, none, none, 1, 3, 0, some 0, none, none, none⟩
    42 7 rfl (by decide) rfl (by decide)

/-- A task with `maxRetries = 3` whose handler rejects on all three
attempts (retry timers fired as armed between attempts). -/
def traceC5 (base : Nat) : QState :=
  handlerReject (retryTimerFire (handlerReject (retryTimerFire (handlerReject
    (enqueueState (freshQueue ⟨none, none, none, some base⟩)
      ⟨true, 0, none, some 3, none, none⟩ 0)
    0 "boom" 1) 1 2) 1 "boom" 3) 1 4) 2 "boom" 5

/-- C5 (amended): a task with `maxRetries = 3` that always fails ends
`failed` after exactly 3 execution attempts, with the failure callback
fired once; but only two backoff delays are scheduled between the three
attempts — `base` and `2·base` (the formula `base * 2 ^ (attempts - 1)` at
`attempts = 1` and `attempts = 2`; see the C10 theorem for the formula in
general); no third delay (`4·base`) is ever armed.  Run here at
`base = 100` (delays 100, 200) and `base = 7` (delays 7, 14). -/
theorem C5_amended_three_attempts_two_backoffs :
    ((traceC5 100).tasks 1).map (fun t => (t.status, t.attempts)) =
      some (TaskStatus.failed, 3) ∧
    (traceC5 100).delayLog.map Prod.snd = [100, 100 * 2] ∧
    (traceC5 100).notifications = [Notif.failed 1] ∧
    ((traceC5 7).tasks 1).map (fun t => (t.status, t.attempts)) =
      some (TaskStatus.failed, 3) ∧
    (traceC5 7).delayLog.map Prod.snd = [7, 7 * 2] ∧
    (traceC5 7).notifications = [Notif.failed 1] := by
  refine ⟨?_, ?_, ?_, ?_, ?_, ?_⟩ <;> decide

/-- C5 (counterexample): with `base = 100` the recorded backoff delays are
`[100, 200]`, not the claimed three delays `base, 2·base, 4·base`. -/
theorem C5_counterexample_no_third_delay :
    (traceC5 100).delayLog.map Prod.snd = [100, 200] ∧
    ¬(traceC5 100).delayLog.map Prod.snd = [100, 200, 400] := by
  constructor <;> decide

/-- The queue after submitting a task with `maxRetries = 0` (dispatched at
once), and its two possible first-attempt outcomes. -/
def trC9 : QState :=
  enqueueState (freshQueue ⟨none, none, none, none⟩)
    ⟨true, 0, none, some 0, none, none⟩ 0

/-- C9: a task submitted with `maxRetries = 0` is dispatched once anyway
(status `running`, attempts 1); if that sole attempt rejects it ends
`failed` with attempts = 1 > 0 = maxRetries, and if it times out it ends
`timed_out` with attempts = 1 and the "Task timed out" error — terminal in
both cases, with the failure callback fired. -/
theorem C9_zero_retries_still_runs_once :
    (trC9.tasks 1).map (fun t => (t.status, t.attempts, t.maxRetries)) =
      some (TaskStatus.running, 1, 0) ∧
    ((handlerReject trC9 0 "boom" 1).tasks 1).map
      (fun t => (t.status, t.attempts, t.maxRetries)) =
      some (TaskStatus.failed, 1, 0) ∧
    (handlerReject trC9 0 "boom" 1).notifications = [Notif.failed 1] ∧
    ((timeoutFire trC9 0 1).tasks 1).map
      (fun t => (t.status, t.attempts, t.error)) =
      some (TaskStatus.timed_out, 1, some "Task timed out") ∧
    (timeoutFire trC9 0 1).notifications = [Notif.failed 1] := by
  refine ⟨?_, ?_, ?_, ?_, ?_⟩ <;> decide

/-- C10: every retry is scheduled with delay
`defaultRetryBaseDelay * 2 ^ (attempts - 1)` — the quantification is over
an arbitrary task record `t`, so the armed delay is the same whatever
`cfgRetryBaseDelay` (the `retryBaseDelay` submitted in `TaskConfig`)
holds; `scheduleRetry` never reads it. -/
theorem C10_per_task_retry_base_delay_ignored (st : QState) (tid : Nat)
    (t : Task) (ht : st.tasks tid = some t) :
    (scheduleRetry st tid).retryTimers tid =
      some (st.defaultRetryBaseDelay * 2 ^ (t.attempts - 1)) ∧
    (scheduleRetry st tid).delayLog =
      st.delayLog ++ [(tid, st.defaultRetryBaseDelay * 2 ^ (t.attempts - 1))] := by
  unfold scheduleRetry
  simp only [ht]
  refine ⟨?_, rfl⟩
  simp

/-- A pending task that was submitted with a per-task `retryBaseDelay` of 7
(stored in `cfgRetryBaseDelay`), one attempt made, on a queue whose default
retry base delay is 1000. -/
def wTaskR : Task :=
  ⟨TaskStatus.pending, 3, 0, none, none, 1, 3, 0, none, none, some 7, none⟩

def wStateR : QState :=
  { wState with tasks := fun k => if k = 1 then some wTaskR else none }

theorem C10_per_task_retry_base_delay_ignored_witness :
    (scheduleRetry wStateR 1).retryTimers 1 =
      some (wStateR.defaultRetryBaseDelay * 2 ^ (wTaskR.attempts - 1)) ∧
    (scheduleRetry wStateR 1).delayLog =
      wStateR.delayLog ++
        [(1, wStateR.defaultRetryBaseDelay * 2 ^ (wTaskR.attempts - 1))] :=
  C10_per_task_retry_base_delay_ignored wStateR 1 wTaskR (by decide)

/-- C7: `enqueue` throws exactly when the queue is disposed, the handler is
not a function, a supplied priority is outside 1..5, or a supplied
maxRetries is negative (the `Number.isInteger` parts of the runtime checks
are integrality by type in this model); a throwing call leaves the state
unchanged — no task record, no handler registration, no ready-list change;
a successful call returns the fresh id `idCounter + 1` (never an existing
task's id), having created its record in `pending` status with
`attempts = 0` and registered its handler before inserting and
dispatching. -/
theorem C7_enqueue_validation (st : QState) (cfg : TaskConfig) (now : Nat)
    (hinv : Inv st) :
    ((∃ msg, enqueue st cfg now = Except.error msg) ↔
      (st.disposed = true ∨ cfg.handlerOk = false ∨
        (∃ p, cfg.priority = some p ∧ (p < 1 ∨ 5 < p)) ∨
        (∃ m, cfg.maxRetries = some m ∧ m < 0))) ∧
    ((∃ msg, enqueue st cfg now = Except.error msg) →
      enqueueState st cfg now = st) ∧
    (∀ id st1, enqueue st cfg now = Except.ok (id, st1) →
      id = st.idCounter + 1 ∧ st.tasks id = none ∧
      (enqueueRegister st cfg now).tasks id = some (newTask st cfg now) ∧
      (enqueueRegister st cfg now).handlers id = true ∧
      (newTask st cfg now).status = TaskStatus.pending ∧
      (newTask st cfg now).attempts = 0 ∧
      st1 = processNext (insertByPriority (enqueueRegister st cfg now) id)
        now) := by
  have hpri : ∀ h3 : priorityInvalid cfg.priority = true,
      ∃ p, cfg.priority = some p ∧ (p < 1 ∨ 5 < p) := by
    intro h3
    unfold priorityInvalid at h3
    cases hp : cfg.priority with
    | none => rw [hp] at h3; cases h3
    | some p =>
      rw [hp] at h3
      simp only [Bool.or_eq_true, decide_eq_true_eq] at h3
      exact ⟨p, rfl, h3⟩
  have hret : ∀ h4 : maxRetriesInvalid cfg.maxRetries = true,
      ∃ m, cfg.maxRetries = some m ∧ m < 0 := by
    intro h4
    unfold maxRetriesInvalid at h4
    cases hm : cfg.maxRetries with
    | none => rw [hm] at h4; cases h4
    | some m =>
      rw [hm] at h4
      simp only [decide_eq_true_eq] at h4
      exact ⟨m, rfl, h4⟩
  unfold enqueueState enqueue
  split_ifs with h1 h2 h3 h4
  · refine ⟨⟨fun _ => Or.inl h1, fun _ => ⟨_, rfl⟩⟩, fun _ => rfl, ?_⟩
    intro id st1 hok
    cases hok
  · refine ⟨⟨fun _ => Or.inr (Or.inl (by simpa using h2)),
      fun _ => ⟨_, rfl⟩⟩, fun _ => rfl, ?_⟩
    intro id st1 hok
    cases hok
  · refine ⟨⟨fun _ => Or.inr (Or.inr (Or.inl (hpri h3))),
      fun _ => ⟨_, rfl⟩⟩, fun _ => rfl, ?_⟩
    intro id st1 hok
    cases hok
  · refine ⟨⟨fun _ => Or.inr (Or.inr (Or.inr (hret h4))),
      fun _ => ⟨_, rfl⟩⟩, fun _ => rfl, ?_⟩
    intro id st1 hok
    cases hok
  · refine ⟨⟨?_, ?_⟩, ?_, ?_⟩
    · rintro ⟨msg, hmsg⟩
      cases hmsg
    · rintro (hd | hh | ⟨p, hp, hcase⟩ | ⟨m, hm, hcase⟩)
      · exact absurd hd h1
      · exact absurd (by rw [hh]; rfl) h2
      · refine absurd ?_ h3
        unfold priorityInvalid
        rw [hp]
        simpa using hcase
      · refine absurd ?_ h4
        unfold maxRetriesInvalid
        rw [hm]
        simpa using hcase
    · rintro ⟨msg, hmsg⟩
      cases hmsg
    · intro id st1 hok
      simp only [Except.ok.injEq, Prod.mk.injEq] at hok
      obtain ⟨hid, hst1⟩ := hok
      subst hid
      refine ⟨rfl, ?_, ?_, ?_, rfl, rfl, hst1.symm⟩
      · cases hfresh : st.tasks (st.idCounter + 1) with
        | none => rfl
        | some t =>
          have := hinv.taskIdBound (st.idCounter + 1) (by rw [hfresh]; rfl)
          omega
      · show (if st.idCounter + 1 = st.idCounter + 1 then
            some (newTask st cfg now) else _) = _
        rw [if_pos rfl]
      · show (if st.idCounter + 1 = st.idCounter + 1 then true else _) = _
        rw [if_pos rfl]

theorem C7_enqueue_validation_witness :
    ((∃ msg, enqueue (freshQueue ⟨none, none, none, none⟩)
        ⟨false, 0, none, none, none, none⟩ 0 = Except.error msg) ↔
      ((freshQueue ⟨none, none, none, none⟩).disposed = true ∨
        (false : Bool) = false ∨
        (∃ p, (none : Option Int) = some p ∧ (p < 1 ∨ 5 < p)) ∨
        (∃ m, (none : Option Int) = some m ∧ m < 0))) ∧
    enqueueState (freshQueue ⟨none, none, none, none⟩)
      ⟨false, 0, none, none, none, none⟩ 0 =
      freshQueue ⟨none, none, none, none⟩ := by
  have h := C7_enqueue_validation (freshQueue ⟨none, none, none, none⟩)
    ⟨false, 0, none, none, none, none⟩ 0
    (@mkQueue_inv ⟨none, none, none, none⟩ _ rfl)
  exact ⟨h.1, h.2.1 (h.1.mpr (Or.inr (Or.inl rfl)))⟩

end TaskQueueSpec
